import Mathlib

/-!
Verification of the news-crawler pipeline: a shallow embedding of
`src/utils/http.py` (HttpClient), `src/crawlers/naver.py` (NaverNewsCrawler)
and `backend/app/service/news_service.py` (NewsService), together with
theorems about the retry, parsing, and orchestration behaviour.

Modelling conventions:
* Machine-independent data (titles, urls, bodies) are Lean `String`s.
* Python `None` / falsy absence is `Option`.
* A raised exception is an `Except.error` carrying `str(e)`.
* The BeautifulSoup selector layer is the library boundary: an HTML page is
  represented by the results the crawler's fixed selector queries produce on
  it (`Html` below), and the parsing code downstream of those queries is
  translated verbatim.
* Sleeps (rate limiting, jitter) have no observable effect on the values the
  functions return, so they are not modelled; attempt counts are.
-/

set_option autoImplicit false

namespace News

/-! ## Data model: src/src/models/article.py -/

/-- `Category(str, Enum)` from `article.py` — the closed six-element set. -/
inductive Category where
  | politics
  | economy
  | society
  | life
  | world
  | it
  deriving DecidableEq, Repr

/-- `Category.value` — the lowercase token carried by the enum member. -/
def Category.value : Category → String
  | .politics => "politics"
  | .economy => "economy"
  | .society => "society"
  | .life => "life"
  | .world => "world"
  | .it => "it"

/-- `list(Category)` — enum iteration order. -/
def allCategories : List Category :=
  [.politics, .economy, .society, .life, .world, .it]

/-- A naive wall-clock timestamp, the image of Python `datetime(y, m, d, h, min)`
(seconds are never produced by the crawler's parser). -/
structure Timestamp where
  year : Nat
  month : Nat
  day : Nat
  hour : Nat
  minute : Nat
  deriving DecidableEq, Repr

/-- The `Article` pydantic model.  `crawled_at` (a process-local clock read,
`default_factory=datetime.now`) is not modelled: no claim refers to it. -/
structure Article where
  title : String
  url : String
  summary : String
  content : String
  category : Category
  source : String
  author : String
  publishedAt : Option Timestamp
  imageUrl : Option String
  deriving DecidableEq, Repr

/-! ## Pure string helpers (kernel-friendly stand-ins for Python `in`,
slicing and `len` over code points). -/

/-- `listStartsWith hay pre` : `pre` is an initial segment of `hay`. -/
def listStartsWith : List Char → List Char → Bool
  | _, [] => true
  | [], _ :: _ => false
  | a :: as, b :: bs => a == b && listStartsWith as bs

/-- Python `hay.startswith(pre)`. -/
def strStartsWith (s p : String) : Bool :=
  listStartsWith s.data p.data

/-- `listContainsSub hay needle` : `needle` occurs contiguously in `hay`. -/
def listContainsSub : List Char → List Char → Bool
  | hay, needle =>
    if listStartsWith hay needle then true
    else
      match hay with
      | [] => false
      | _ :: rest => listContainsSub rest needle

/-- Python `needle in hay` on strings (substring containment). -/
def containsSub (needle hay : String) : Bool :=
  listContainsSub hay.data needle.data

/-- Python `s[:n]` for `n ≥ 0` (slice of code points). -/
def strTake (s : String) (n : Nat) : String :=
  ⟨s.data.take n⟩

/-- Python `len(s)` (number of code points). -/
def strLen (s : String) : Nat :=
  s.data.length

/-! ## Rate-limited fetcher: src/src/utils/http.py -/

/-- What one HTTP attempt observes, i.e. the outcome of
`self._client.get(url)` followed by `raise_for_status()`:
a non-error response's text, an `HTTPStatusError` with its status code,
a `ConnectError`, a `TimeoutException`, or any other exception. -/
inductive FetchOutcome where
  | success (body : String)
  | httpStatus (code : Nat)
  | connError
  | timeoutErr
  | otherError
  deriving DecidableEq, Repr

/-- The `for attempt in range(self.max_retries)` loop of `HttpClient.get`,
lines 56–84 of `http.py`.  `responder attempt` is what the network returns on
that attempt.  The second component counts the attempts actually issued.
The recursion is structured on the number of loop iterations left
(`max_retries - attempt`), so the first argument pair at the top of the loop
is `(max_retries, 0)` and the loop exits with `None` when no iterations
remain.  The sleeps (jitter before a retry, the `(attempt+1)*5` wait on 429,
the backoff on connection errors) do not change the returned value and are
not modelled. -/
def getLoopAux (responder : Nat → FetchOutcome) :
    Nat → Nat → Option String × Nat
  | 0, attempt => (none, attempt)
  | remaining + 1, attempt =>
      match responder attempt with
      | .success body => (some body, attempt + 1)
      | .httpStatus code =>
          if code = 429 then getLoopAux responder remaining (attempt + 1)
          else if 500 ≤ code then getLoopAux responder remaining (attempt + 1)
          else (none, attempt + 1)
      | .connError => getLoopAux responder remaining (attempt + 1)
      | .timeoutErr => getLoopAux responder remaining (attempt + 1)
      | .otherError => (none, attempt + 1)

/-- The loop entered at `attempt = 0` with the whole retry budget left. -/
def getLoop (responder : Nat → FetchOutcome) (maxRetries : Nat) :
    Option String × Nat :=
  getLoopAux responder maxRetries 0

/-- The mutable state of an `HttpClient`: its retry budget and, when inside
the `async with` scope, the live connection (`self._client`), modelled as the
network behaviour `url ↦ attempt ↦ outcome` it gives access to. -/
structure HttpClientState where
  maxRetries : Nat
  client : Option (String → Nat → FetchOutcome)

/-- The message of the `RuntimeError` raised by `get` outside the scope. -/
def runtimeErrorMsg : String :=
  "HttpClient must be used as async context manager"

/-- `HttpClient.get` (http.py lines 43–84): raises `RuntimeError` when
`self._client` is absent, otherwise runs the retry loop and returns the body
or `None`.  The `Nat` component is the number of network attempts issued. -/
def HttpClientState.get (st : HttpClientState) (url : String) :
    Except String (Option String) × Nat :=
  match st.client with
  | none => (Except.error runtimeErrorMsg, 0)
  | some net =>
      let r := getLoop (net url) st.maxRetries
      (Except.ok r.1, r.2)

/-- `__aenter__`: installs the live client. -/
def HttpClientState.aenter (st : HttpClientState)
    (net : String → Nat → FetchOutcome) : HttpClientState :=
  { st with client := some net }

/-- `__aexit__`: closes and clears the client. -/
def HttpClientState.aexit (st : HttpClientState) : HttpClientState :=
  { st with client := none }

/-! ## The selector view of an HTML page

The crawler issues a fixed set of BeautifulSoup queries against each page.
BeautifulSoup itself is the library boundary of the embedding: a page is
represented by what those queries return, in document order, and everything
the crawler does downstream of the queries is translated verbatim. -/

/-- One anchor element as the crawler reads it: `link.get("href", "")` and
`link.get_text(strip=True)`. -/
structure Link where
  href : String
  text : String
  deriving DecidableEq, Repr

/-- The element matched by the source selector, with the attributes read from
it: `get("alt", "")`, `get("title", "")`, `get_text(strip=True)`. -/
structure SourceElem where
  alt : String
  titleAttr : String
  text : String
  deriving DecidableEq, Repr

/-- The element matched by the published-time selector:
`get("data-date-time")`, `get("datetime")` (absent attribute ⇒ `none`) and
`get_text(strip=True)`. -/
structure TimeElem where
  dataDateTime : Option String
  datetimeAttr : Option String
  text : String
  deriving DecidableEq, Repr

/-- The element matched by the image selector; `get("src")` may be absent. -/
structure ImageElem where
  src : Option String
  deriving DecidableEq, Repr

/-- The selector view of a page.

* `pass1Links`: anchors collected by the two nested queries
  `soup.select(".sa_list, .section_headline, .cluster_group")` then
  `area.select("a.sa_text_title, a.cluster_text_headline, a[class*='title']")`,
  flattened in document order.  A container selector can match nested
  containers (`.sa_list` containing a `.cluster_group`), so the same anchor
  may legitimately occur more than once in this list.
* `pass2Items`: one entry per element of
  `soup.select(".sa_item, .cluster_item, li[class*='news']")`, holding the
  result of `item.select_one("a[class*='title'], a[class*='headline']")`.
* The remaining fields are the `select_one` results used by the detail
  parser (`none` = selector chain matched nothing); for elements whose only
  use is their stripped text, the text itself is stored. -/
structure Html where
  pass1Links : List Link
  pass2Items : List (Option Link)
  titleElem : Option String
  contentElem : Option String
  sourceElem : Option SourceElem
  authorElem : Option String
  timeElem : Option TimeElem
  imageElem : Option ImageElem
  deriving DecidableEq, Repr

/-! ## List parser: NaverNewsCrawler._parse_article_list (naver.py 36–95) -/

/-- `BASE_URL` of `NaverNewsCrawler`. -/
def BASE_URL : String := "https://news.naver.com"

/-- `urljoin(BASE_URL, href)` restricted to the only case the crawler
exercises (`href.startswith("/")`): a protocol-relative href keeps the base
scheme, a root-relative href is appended to the base. -/
def resolveHref (href : String) : String :=
  if strStartsWith href "//" then "https:" ++ href else BASE_URL ++ href

/-- An ephemeral listing entry: the dict
`{"title": ..., "url": ..., "category": ...}` built by the list parser. -/
structure Candidate where
  title : String
  url : String
  category : Category
  deriving DecidableEq, Repr

/-- The shared per-anchor body of both passes (naver.py 54–65 and 79–88,
minus pass 2's dedup test): skip when href or title is empty, resolve a
slash-prefixed href against the base URL, keep only urls containing
`"news.naver.com"`.  Returns the (title, url) that would be recorded. -/
def normalizeLink (l : Link) : Option (String × String) :=
  if l.href = "" ∨ l.text = "" then none
  else
    let href := if strStartsWith l.href "/" then resolveHref l.href else l.href
    if containsSub "news.naver.com" href then some (l.text, href) else none

/-- Pass 1 (naver.py 49–70): collect every retained headline-area anchor, in
order, with no duplicate check. -/
def pass1Collect (links : List Link) (category : Category) : List Candidate :=
  match links with
  | [] => []
  | l :: rest =>
      match normalizeLink l with
      | some (title, href) => ⟨title, href, category⟩ :: pass1Collect rest category
      | none => pass1Collect rest category

/-- Pass 2 (naver.py 73–93): walk the list items, skipping items without a
title/headline anchor, and append each retained anchor unless its url is
already in the accumulated list (`href not in [a["url"] for a in articles]`). -/
def pass2Collect (acc : List Candidate) (items : List (Option Link))
    (category : Category) : List Candidate :=
  match items with
  | [] => acc
  | none :: rest => pass2Collect acc rest category
  | some l :: rest =>
      match normalizeLink l with
      | some (title, href) =>
          if acc.any (fun a => a.url == href) then pass2Collect acc rest category
          else pass2Collect (acc ++ [⟨title, href, category⟩]) rest category
      | none => pass2Collect acc rest category

/-- The full accumulated list before the final truncation (`articles` at
naver.py line 95). -/
def articlesFull (doc : Html) (category : Category) : List Candidate :=
  pass2Collect (pass1Collect doc.pass1Links category) doc.pass2Items category

/-- `_parse_article_list`: both passes, then `articles[:20]`. -/
def parseArticleList (doc : Html) (category : Category) : List Candidate :=
  (articlesFull doc category).take 20

/-! ## Datetime normalizer: NaverNewsCrawler._parse_datetime (naver.py 166–194)

The two regexes `(\d{4})[.-](\d{2})[.-](\d{2})\s*(\d{2}):(\d{2})` and
`(\d{4})[.-](\d{2})[.-](\d{2})` are fixed-shape patterns, so `re.search` is
modelled by trying an exact-shape match at each position left to right.
`\d` and `\s` are modelled on their ASCII ranges (the crawler's inputs are
ASCII date strings). -/

/-- The numeric value of a decimal digit character. -/
def digitVal (c : Char) : Nat := c.toNat - 48

/-- Match `\d{2}`, returning its `int` value and the rest. -/
def take2Digits : List Char → Option (Nat × List Char)
  | a :: b :: rest =>
      if a.isDigit && b.isDigit then
        some (digitVal a * 10 + digitVal b, rest)
      else none
  | _ => none

/-- Match `\d{4}`, returning its `int` value and the rest. -/
def take4Digits : List Char → Option (Nat × List Char)
  | a :: b :: c :: d :: rest =>
      if a.isDigit && b.isDigit && c.isDigit && d.isDigit then
        some (((digitVal a * 10 + digitVal b) * 10 + digitVal c) * 10
          + digitVal d, rest)
      else none
  | _ => none

/-- Match the separator class `[.-]`. -/
def takeSep : List Char → Option (List Char)
  | c :: rest => if c == '.' || c == '-' then some rest else none
  | [] => none

/-- Greedily consume `\s*` (safe without backtracking: whitespace and digits
are disjoint). -/
def skipWs : List Char → List Char
  | c :: rest => if c.isWhitespace then skipWs rest else c :: rest
  | [] => []

/-- Try the date-time pattern at the current position; on success return the
five captured group values. -/
def matchP1At (cs : List Char) : Option (Nat × Nat × Nat × Nat × Nat) := do
  let (y, cs) ← take4Digits cs
  let cs ← takeSep cs
  let (mo, cs) ← take2Digits cs
  let cs ← takeSep cs
  let (d, cs) ← take2Digits cs
  let cs := skipWs cs
  let (h, cs) ← take2Digits cs
  match cs with
  | ':' :: cs => do
      let (mi, _) ← take2Digits cs
      pure (y, mo, d, h, mi)
  | _ => none

/-- Try the date-only pattern at the current position. -/
def matchP2At (cs : List Char) : Option (Nat × Nat × Nat) := do
  let (y, cs) ← take4Digits cs
  let cs ← takeSep cs
  let (mo, cs) ← take2Digits cs
  let cs ← takeSep cs
  let (d, _) ← take2Digits cs
  pure (y, mo, d)

/-- `re.search` for the date-time pattern: first matching position wins. -/
def searchP1 : List Char → Option (Nat × Nat × Nat × Nat × Nat)
  | [] => none
  | c :: rest =>
      match matchP1At (c :: rest) with
      | some g => some g
      | none => searchP1 rest

/-- `re.search` for the date-only pattern. -/
def searchP2 : List Char → Option (Nat × Nat × Nat)
  | [] => none
  | c :: rest =>
      match matchP2At (c :: rest) with
      | some g => some g
      | none => searchP2 rest

/-- Gregorian leap year, as the `datetime` constructor checks it. -/
def isLeapYear (y : Nat) : Bool :=
  y % 4 = 0 && (y % 100 ≠ 0 || y % 400 = 0)

/-- Days in a month, as the `datetime` constructor checks it. -/
def daysInMonth (y m : Nat) : Nat :=
  if m = 2 then (if isLeapYear y then 29 else 28)
  else if m = 4 || m = 6 || m = 9 || m = 11 then 30
  else 31

/-- The argument checks of `datetime(y, m, d)` that a `ValueError` enforces
(`MINYEAR = 1`, `MAXYEAR = 9999`). -/
def validYMD (y m d : Nat) : Bool :=
  1 ≤ y && y ≤ 9999 && 1 ≤ m && m ≤ 12 && 1 ≤ d && d ≤ daysInMonth y m

/-- The hour/minute argument checks of `datetime`. -/
def validHM (h mi : Nat) : Bool :=
  h ≤ 23 && mi ≤ 59

/-- The second iteration of the pattern loop: the date-only pattern, reached
when the date-time pattern did not match or its `datetime` call raised
`ValueError` (`continue`). -/
def dateOnlyFallback (timeStr : String) : Option Timestamp :=
  match searchP2 timeStr.data with
  | some (y, mo, d) =>
      if validYMD y mo d then some ⟨y, mo, d, 0, 0⟩ else none
  | none => none

/-- `_parse_datetime`: empty (falsy) input yields `None`; then the two
patterns are tried in order, a match whose numeric components make
`datetime` raise being skipped in favour of the next pattern. -/
def parseDatetime (timeStr : String) : Option Timestamp :=
  if timeStr = "" then none
  else
    match searchP1 timeStr.data with
    | some (y, mo, d, h, mi) =>
        if validYMD y mo d && validHM h mi then some ⟨y, mo, d, h, mi⟩
        else dateOnlyFallback timeStr
    | none => dateOnlyFallback timeStr

/-! ## Detail parser: NaverNewsCrawler._parse_article_detail (naver.py 97–164) -/

/-- Python chained `or` on strings (the empty string is falsy). -/
def pyStrOr (a b : String) : String :=
  if a = "" then b else a

/-- Python `opt or b` where `opt` is `get(attr)` (absent ⇒ `None`, and an
empty string is falsy too). -/
def pyOptOr (a : Option String) (b : String) : String :=
  match a with
  | some s => if s = "" then b else s
  | none => b

/-- `time_elem.get("data-date-time") or time_elem.get("datetime") or
time_elem.get_text(strip=True)` (naver.py line 145). -/
def TimeElem.timeStr (t : TimeElem) : String :=
  pyOptOr t.dataDateTime (pyOptOr t.datetimeAttr t.text)

/-- `source_elem.get("alt", "") or source_elem.get("title", "") or
source_elem.get_text(strip=True)` (naver.py line 131). -/
def SourceElem.display (s : SourceElem) : String :=
  pyStrOr s.alt (pyStrOr s.titleAttr s.text)

/-- `title = title_elem.get_text(strip=True) if title_elem else ""`. -/
def detailTitle (doc : Html) : String :=
  match doc.titleElem with
  | some t => t
  | none => ""

/-- `_parse_article_detail`: reject (return `None`) iff the extracted title
is empty; otherwise assemble the `Article`.  `contentElem` already carries
the body text after the `script, style, .reporter_area` sub-elements were
decomposed (a DOM operation inside the library boundary). -/
def parseArticleDetail (doc : Html) (url : String) (category : Category) :
    Option Article :=
  let title := detailTitle doc
  if title = "" then none
  else
    let content :=
      match doc.contentElem with
      | some c => c
      | none => ""
    let summary :=
      if 300 < strLen content then strTake content 300 ++ "..." else content
    let source :=
      match doc.sourceElem with
      | some s => s.display
      | none => ""
    let author :=
      match doc.authorElem with
      | some a => a
      | none => ""
    let publishedAt :=
      match doc.timeElem with
      | some t => parseDatetime t.timeStr
      | none => none
    let imageUrl :=
      match doc.imageElem with
      | some i => i.src
      | none => none
    some
      { title := title
        url := url
        summary := summary
        content := content
        category := category
        source := source
        author := author
        publishedAt := publishedAt
        imageUrl := imageUrl }

/-! ## Category crawl orchestration: naver.py 204–314

The fetcher is abstracted as `fetch : String → Option Html`: `HttpClient.get`
returns the page text or `None`, and the text's selector view is the `Html`
value.  `get_with_delay` only adds a leading sleep before delegating to
`get`, so the same function models both entry points. -/

/-- `CATEGORY_SECTIONS` with the `.get(category, "100")` default (the
mapping is total, so the default is dead code). -/
def CATEGORY_SECTIONS (c : Category) : String :=
  match c with
  | .politics => "100"
  | .economy => "101"
  | .society => "102"
  | .life => "103"
  | .world => "104"
  | .it => "105"

/-- `_get_section_url`. -/
def sectionUrl (c : Category) : String :=
  BASE_URL ++ "/section/" ++ CATEGORY_SECTIONS c

/-- `get_article_list` (naver.py 204–228): fetch the section page; a failed
fetch yields the empty list; otherwise parse and truncate to `max_count`.
The `today_only` parameter of the source is unused by its body and is
omitted. -/
def getArticleList (fetch : String → Option Html) (category : Category)
    (maxCount : Nat) : List Candidate :=
  match fetch (sectionUrl category) with
  | none => []
  | some html => (parseArticleList html category).take maxCount

/-- `get_article_detail` (naver.py 230–246): fetch (with leading delay) and
parse; a failed fetch yields `None`. -/
def getArticleDetail (fetch : String → Option Html) (url : String)
    (category : Category) : Option Article :=
  match fetch url with
  | none => none
  | some html => parseArticleDetail html url category

/-- The minimal `Article(title=item["title"], url=item["url"],
category=category, summary="")` built when `include_content` is false
(naver.py 275–280); the remaining fields take the model's defaults. -/
def minimalArticle (category : Category) (item : Candidate) : Article :=
  { title := item.title
    url := item.url
    summary := ""
    content := ""
    category := category
    source := ""
    author := ""
    publishedAt := none
    imageUrl := none }

/-- The `for item in article_list` loop of `crawl_category` (naver.py
268–280): with content, fetch-and-parse each detail page, skipping the
candidates that yield nothing; without content, build a minimal article. -/
def crawlLoop (fetch : String → Option Html) (category : Category)
    (includeContent : Bool) : List Candidate → List Article
  | [] => []
  | item :: rest =>
      if includeContent then
        match getArticleDetail fetch item.url category with
        | some article => article :: crawlLoop fetch category includeContent rest
        | none => crawlLoop fetch category includeContent rest
      else
        minimalArticle category item :: crawlLoop fetch category includeContent rest

/-- `crawl_category` (naver.py 248–282). -/
def crawlCategory (fetch : String → Option Html) (category : Category)
    (maxArticles : Nat) (includeContent : Bool) : List Article :=
  crawlLoop fetch category includeContent (getArticleList fetch category maxArticles)

/-- Python dict assignment `d[k] = v` on an insertion-ordered dict: replace
in place when the key is present, append otherwise. -/
def dictInsert {α : Type} (d : List (String × α)) (k : String) (v : α) :
    List (String × α) :=
  if d.any (fun p => p.1 == k) then
    d.map (fun p => if p.1 == k then (k, v) else p)
  else d ++ [(k, v)]

/-- `categories if categories is not None else list(Category)`. -/
def categoriesOrAll (categories : Option (List Category)) : List Category :=
  match categories with
  | none => allCategories
  | some cs => cs

/-- `NaverNewsCrawler.crawl_all_categories` (naver.py 284–314): crawl each
category in turn and record `result[category.value] = articles`. -/
def crawlAllCategories (fetch : String → Option Html)
    (categories : Option (List Category)) (maxPerCategory : Nat)
    (includeContent : Bool) : List (String × List Article) :=
  (categoriesOrAll categories).foldl
    (fun acc c =>
      dictInsert acc c.value (crawlCategory fetch c maxPerCategory includeContent))
    []

/-! ## Service layer: NewsService.crawl_all_categories
(backend/app/service/news_service.py 84–135)

`_map_category` is a bijection between the API `CategoryEnum` and the crawler
`Category` with identical member values, so a single `Category` type models
both.  The repository is the external Persistence Gateway: `bulkUpsert`
either succeeds or raises (an `Except.error` with the exception's `str`),
and the run-log writes are recorded in the output. -/

/-- The Persistence Gateway as the service sees it.  `createLogId` is
`(await create_crawl_log()).get("id")`. -/
structure Repo where
  createLogId : Option Nat
  bulkUpsert : String → List Article → Except String Unit

/-- One `update_crawl_log(log_id, count, status, error_message)` call. -/
structure LogUpdate where
  logId : Nat
  count : Nat
  status : String
  errorMessage : Option String
  deriving DecidableEq, Repr

/-- The observable outcome of one service-level `crawl_all_categories`
invocation: the returned per-category counts or the re-raised exception,
together with the run-log updates issued. -/
structure ServiceResult where
  returned : Except String (List (String × Nat))
  logUpdates : List LogUpdate
  deriving Repr

/-- The `for cat_str, articles in articles_by_category.items()` loop
(news_service.py 113–117): bulk-upsert each category's articles, then record
its count and add it to the running total.  An exception carries the running
total accumulated before the failing category (used by the `except` block's
log update). -/
def persistLoop (repo : Repo) (items : List (String × List Article))
    (results : List (String × Nat)) (totalCount : Nat) :
    Except (String × Nat) (List (String × Nat) × Nat) :=
  match items with
  | [] => Except.ok (results, totalCount)
  | (cat, articles) :: rest =>
      match repo.bulkUpsert cat articles with
      | Except.error e => Except.error (e, totalCount)
      | Except.ok _ =>
          persistLoop repo rest (dictInsert results cat articles.length)
            (totalCount + articles.length)

/-- The tail of the service method: on success, update the run log (when an
id was obtained) to `success` with the total count and return the counts;
on an exception, update it to `failed` with the partial count and the
exception's message, then re-raise. -/
def finishRun (logId : Option Nat)
    (outcome : Except (String × Nat) (List (String × Nat) × Nat)) :
    ServiceResult :=
  match outcome with
  | Except.ok (results, totalCount) =>
      { returned := Except.ok results
        logUpdates :=
          match logId with
          | some id =>
              [{ logId := id, count := totalCount, status := "success",
                 errorMessage := none }]
          | none => [] }
  | Except.error (msg, totalCount) =>
      { returned := Except.error msg
        logUpdates :=
          match logId with
          | some id =>
              [{ logId := id, count := totalCount, status := "failed",
                 errorMessage := some msg }]
          | none => [] }

/-- `NewsService.crawl_all_categories` (news_service.py 84–135): create the
run log, crawl every category (the crawl phase is total in the model), then
persist and close the run log. -/
def NewsService.crawlAllCategories (repo : Repo)
    (fetch : String → Option Html) (categories : Option (List Category))
    (maxPerCategory : Nat) (includeContent : Bool) : ServiceResult :=
  finishRun repo.createLogId
    (persistLoop repo
      (News.crawlAllCategories fetch (some (categoriesOrAll categories))
        maxPerCategory includeContent)
      [] 0)

/-! ## Theorems -/

/-! ### The fetcher's retry loop -/

theorem getLoopAux_429 (r : Nat → FetchOutcome) (remaining attempt : Nat)
    (h : r attempt = .httpStatus 429) :
    getLoopAux r (remaining + 1) attempt = getLoopAux r remaining (attempt + 1) := by
  simp [getLoopAux, h]

theorem getLoopAux_success (r : Nat → FetchOutcome) (remaining attempt : Nat)
    (body : String) (h : r attempt = .success body) :
    getLoopAux r (remaining + 1) attempt = (some body, attempt + 1) := by
  simp [getLoopAux, h]

/-- C2: with `maxRetries = 3`, `HttpClient.get` against an endpoint that
answers 429 on the first two attempts and succeeds on the third returns the
successful body after exactly 3 attempts; against an endpoint that always
answers 429 it makes exactly 3 attempts and then returns `None`, no
exception escaping on retry exhaustion. -/
theorem C2_fetch_retry_budget :
    (∀ (net : String → Nat → FetchOutcome) (url body : String),
      net url 0 = .httpStatus 429 → net url 1 = .httpStatus 429 →
      net url 2 = .success body →
      HttpClientState.get ⟨3, some net⟩ url = (Except.ok (some body), 3)) ∧
    (∀ (net : String → Nat → FetchOutcome) (url : String),
      (∀ i, net url i = .httpStatus 429) →
      HttpClientState.get ⟨3, some net⟩ url = (Except.ok none, 3)) := by
  constructor
  · intro net url body h0 h1 h2
    have e : getLoop (net url) 3 = (some body, 3) := by
      unfold getLoop
      calc getLoopAux (net url) 3 0
          = getLoopAux (net url) 2 1 := getLoopAux_429 (net url) 2 0 h0
        _ = getLoopAux (net url) 1 2 := getLoopAux_429 (net url) 1 1 h1
        _ = (some body, 3) := getLoopAux_success (net url) 0 2 body h2
    show (Except.ok (getLoop (net url) 3).1, (getLoop (net url) 3).2)
        = (Except.ok (some body), 3)
    rw [e]
  · intro net url h
    have e : getLoop (net url) 3 = (none, 3) := by
      unfold getLoop
      calc getLoopAux (net url) 3 0
          = getLoopAux (net url) 2 1 := getLoopAux_429 (net url) 2 0 (h 0)
        _ = getLoopAux (net url) 1 2 := getLoopAux_429 (net url) 1 1 (h 1)
        _ = getLoopAux (net url) 0 3 := getLoopAux_429 (net url) 0 2 (h 2)
        _ = (none, 3) := rfl
    show (Except.ok (getLoop (net url) 3).1, (getLoop (net url) 3).2)
        = (Except.ok none, 3)
    rw [e]

/-- C2 witness: both parts of the retry-budget theorem at a concrete
endpoint. -/
theorem C2_fetch_retry_budget_witness :
    HttpClientState.get
        ⟨3, some (fun _ i => if i < 2 then .httpStatus 429 else .success "ok")⟩
        "https://news.naver.com/section/100" = (Except.ok (some "ok"), 3) ∧
    HttpClientState.get ⟨3, some (fun _ _ => .httpStatus 429)⟩
        "https://news.naver.com/section/100" = (Except.ok none, 3) :=
  ⟨C2_fetch_retry_budget.1 (fun _ i => if i < 2 then .httpStatus 429 else .success "ok")
      "https://news.naver.com/section/100" "ok" rfl rfl rfl,
   C2_fetch_retry_budget.2 (fun _ _ => .httpStatus 429)
      "https://news.naver.com/section/100" (fun _ => rfl)⟩

/-- C10: calling `get` while `self._client` is absent (before `__aenter__`
or after `__aexit__`) raises the `RuntimeError` without issuing any network
attempt; inside the scope `get` never raises: it returns the body or `None`. -/
theorem C10_scoped_client (st : HttpClientState) (url : String)
    (net : String → Nat → FetchOutcome) :
    (st.client = none → st.get url = (Except.error runtimeErrorMsg, 0)) ∧
    (st.aexit).get url = (Except.error runtimeErrorMsg, 0) ∧
    ∃ body : Option String, ((st.aenter net).get url).1 = Except.ok body := by
  refine ⟨?_, ?_, ?_⟩
  · intro h
    unfold HttpClientState.get
    rw [h]
  · rfl
  · exact ⟨(getLoop (net url) st.maxRetries).1, rfl⟩

/-- C10 witness: the scope theorem at a concrete client state. -/
theorem C10_scoped_client_witness :
    HttpClientState.get ⟨3, none⟩ "https://news.naver.com/section/100"
      = (Except.error runtimeErrorMsg, 0) :=
  (C10_scoped_client ⟨3, none⟩ "https://news.naver.com/section/100"
    (fun _ _ => .otherError)).1 rfl

/-! ### The datetime normalizer -/

theorem validYMD_bounds {y m d : Nat} (h : validYMD y m d = true) :
    1 ≤ y ∧ y ≤ 9999 ∧ 1 ≤ m ∧ m ≤ 12 ∧ 1 ≤ d ∧ d ≤ daysInMonth y m := by
  simp only [validYMD, Bool.and_eq_true, decide_eq_true_eq] at h
  exact ⟨h.1.1.1.1.1, h.1.1.1.1.2, h.1.1.1.2, h.1.1.2, h.1.2, h.2⟩

/-- The components every timestamp the normalizer can produce satisfies:
exactly the argument checks of the `datetime` constructor it guards with
`try`/`except ValueError`. -/
def validComponents (t : Timestamp) : Prop :=
  1 ≤ t.year ∧ t.year ≤ 9999 ∧ 1 ≤ t.month ∧ t.month ≤ 12 ∧
    1 ≤ t.day ∧ t.day ≤ daysInMonth t.year t.month ∧ t.hour ≤ 23 ∧ t.minute ≤ 59

theorem dateOnlyFallback_valid (s : String) (t : Timestamp)
    (h : dateOnlyFallback s = some t) : validComponents t := by
  unfold dateOnlyFallback at h
  split at h
  next y mo d =>
    split at h
    next hv =>
      cases h
      obtain ⟨b1, b2, b3, b4, b5, b6⟩ := validYMD_bounds hv
      exact ⟨b1, b2, b3, b4, b5, b6, Nat.zero_le 23, Nat.zero_le 59⟩
    next hv => cases h
  next => cases h

theorem parseDatetime_valid (s : String) (t : Timestamp)
    (h : parseDatetime s = some t) : validComponents t := by
  unfold parseDatetime at h
  split at h
  next => cases h
  next =>
    split at h
    next y mo d hh mi =>
      split at h
      next hv =>
        cases h
        rw [Bool.and_eq_true] at hv
        obtain ⟨b1, b2, b3, b4, b5, b6⟩ := validYMD_bounds hv.1
        have hm := hv.2
        simp only [validHM, Bool.and_eq_true, decide_eq_true_eq] at hm
        exact ⟨b1, b2, b3, b4, b5, b6, hm.1, hm.2⟩
      next hv => exact dateOnlyFallback_valid s t h
    next => exact dateOnlyFallback_valid s t h

/-- C6: the datetime normalizer maps `"2025-01-27 14:30"` to
2025-01-27T14:30, `"2025.01.27"` to 2025-01-27T00:00, and `"not a date"` to
`None`; the date-time pattern wins over the date-only pattern when both
match; a match with invalid numeric components (month 13) is skipped rather
than raising, falling through to the next pattern and to `None`; and every
timestamp it ever returns has components the `datetime` constructor
accepts — the function is total and never raises. -/
theorem C6_datetime_normalizer :
    parseDatetime "2025-01-27 14:30" = some ⟨2025, 1, 27, 14, 30⟩ ∧
    parseDatetime "2025.01.27" = some ⟨2025, 1, 27, 0, 0⟩ ∧
    parseDatetime "not a date" = none ∧
    parseDatetime "2025-13-01 14:30" = none ∧
    ∀ (s : String) (t : Timestamp), parseDatetime s = some t → validComponents t :=
  ⟨by decide, by decide, by decide, by decide, parseDatetime_valid⟩

/-- C6 witness: the universally quantified component-validity part of the
normalizer theorem at a concrete parse. -/
theorem C6_datetime_normalizer_witness :
    validComponents ⟨2025, 1, 27, 14, 30⟩ :=
  C6_datetime_normalizer.2.2.2.2 "2025-01-27 14:30" ⟨2025, 1, 27, 14, 30⟩
    (by decide)

/-! ### The detail parser -/

/-- C5: the detail parser returns `None` exactly when no title selector
matched or the matched title text is empty, regardless of any other content
on the page; conversely every `Article` it returns has a non-empty title. -/
theorem C5_detail_title_rejection :
    (∀ (doc : Html) (url : String) (category : Category),
      parseArticleDetail doc url category = none ↔ detailTitle doc = "") ∧
    (∀ (doc : Html) (url : String) (category : Category) (a : Article),
      parseArticleDetail doc url category = some a → a.title ≠ "") := by
  constructor
  · intro doc url category
    unfold parseArticleDetail
    by_cases h : detailTitle doc = ""
    · simp [h]
    · simp [h]
  · intro doc url category a h
    unfold parseArticleDetail at h
    by_cases ht : detailTitle doc = ""
    · rw [if_pos ht] at h; cases h
    · rw [if_neg ht] at h
      cases h
      exact ht

/-- The detail page used in witnesses: a title and a short body, nothing
else. -/
def witnessDetailDoc : Html :=
  { pass1Links := []
    pass2Items := []
    titleElem := some "Headline"
    contentElem := some "Body text."
    sourceElem := none
    authorElem := none
    timeElem := none
    imageElem := none }

/-- The article the detail parser produces from `witnessDetailDoc`. -/
def witnessDetailArticle : Article :=
  { title := "Headline"
    url := "https://news.naver.com/a/1"
    summary := "Body text."
    content := "Body text."
    category := Category.politics
    source := ""
    author := ""
    publishedAt := none
    imageUrl := none }

/-- C5 witness: the non-empty-title consequence at a concrete parsed page. -/
theorem C5_detail_title_rejection_witness :
    witnessDetailArticle.title ≠ "" :=
  C5_detail_title_rejection.2 witnessDetailDoc "https://news.naver.com/a/1"
    Category.politics witnessDetailArticle (by decide)

/-- C8: for every article the detail parser returns, the summary equals the
extracted content when the content is at most 300 characters (so it is empty
when the content is empty), and equals the first 300 characters of the
content followed by the ellipsis marker when the content is longer. -/
theorem C8_summary_derivation (doc : Html) (url : String) (category : Category)
    (a : Article) (h : parseArticleDetail doc url category = some a) :
    (strLen a.content ≤ 300 → a.summary = a.content) ∧
    (300 < strLen a.content → a.summary = strTake a.content 300 ++ "...") := by
  unfold parseArticleDetail at h
  by_cases ht : detailTitle doc = ""
  · rw [if_pos ht] at h; cases h
  · rw [if_neg ht] at h
    cases h
    dsimp only
    constructor
    · intro hle
      rw [if_neg (by omega)]
    · intro hgt
      rw [if_pos hgt]

/-- C8 witness: the short-content branch of the summary theorem at a
concrete parsed page. -/
theorem C8_summary_derivation_witness :
    witnessDetailArticle.summary = witnessDetailArticle.content :=
  (C8_summary_derivation witnessDetailDoc "https://news.naver.com/a/1"
    Category.politics witnessDetailArticle (by decide)).1 (by decide)

/-! ### The list parser -/

/-- A listing page whose headline area yields the same anchor twice: the
container selector `.sa_list, .section_headline, .cluster_group` matches
both an outer `.sa_list` and a `.cluster_group` nested inside it, so the one
anchor is collected by both areas. -/
def dupHeadlineDoc : Html :=
  { pass1Links := [⟨"/a/1", "Same story"⟩, ⟨"/a/1", "Same story"⟩]
    pass2Items := []
    titleElem := none
    contentElem := none
    sourceElem := none
    authorElem := none
    timeElem := none
    imageElem := none }

/-- C3 counterexample: on a page where the headline pass finds the same URL
twice, the parsed listing contains that URL twice — the claimed "each URL
appears at most once" fails, because only the second (list-item) pass
deduplicates. -/
theorem C3_counterexample :
    ((parseArticleList dupHeadlineDoc Category.politics).map
      (fun a => a.url)).count "https://news.naver.com/a/1" = 2 ∧
    ¬ ((parseArticleList dupHeadlineDoc Category.politics).map
      (fun a => a.url)).Nodup := by
  constructor
  · decide
  · decide

theorem pass2Collect_nodup (category : Category) (items : List (Option Link)) :
    ∀ acc : List Candidate, ((acc.map (fun a => a.url)).Nodup) →
      ((pass2Collect acc items category).map (fun a => a.url)).Nodup := by
  induction items with
  | nil => intro acc h; exact h
  | cons head rest ih =>
      intro acc h
      cases head with
      | none => exact ih acc h
      | some l =>
          show (((match normalizeLink l with
            | some (title, href) =>
                if acc.any (fun a => a.url == href) then pass2Collect acc rest category
                else pass2Collect (acc ++ [(⟨title, href, category⟩ : Candidate)]) rest category
            | none => pass2Collect acc rest category) : List Candidate).map
              (fun a => a.url)).Nodup
          cases hn : normalizeLink l with
          | none => exact ih acc h
          | some p =>
              obtain ⟨title, href⟩ := p
              dsimp only
              by_cases hdup : (acc.any fun a => a.url == href) = true
              · rw [if_pos hdup]
                exact ih acc h
              · rw [if_neg hdup]
                apply ih
                rw [List.map_append]
                rw [List.nodup_append]
                refine ⟨h, List.nodup_singleton href, ?_⟩
                intro u hu hu1
                rcases List.mem_map.1 hu with ⟨a, ha, rfl⟩
                simp only [List.map_cons, List.map_nil, List.mem_singleton] at hu1
                exact hdup (List.any_eq_true.2 ⟨a, ha, by simp [hu1]⟩)

/-- C3 amended: the second (list-item) pass skips any URL already collected,
so the parsed listing is duplicate-free whenever the headline pass itself
yields no duplicate URL; the result is a prefix of the accumulated
insertion-ordered list, of length at most 20, and of length exactly 20
whenever at least 20 candidates were retained. -/
theorem C3_amended (doc : Html) (category : Category) :
    (((pass1Collect doc.pass1Links category).map (fun a => a.url)).Nodup →
      ((parseArticleList doc category).map (fun a => a.url)).Nodup) ∧
    (parseArticleList doc category).length ≤ 20 ∧
    (20 ≤ (articlesFull doc category).length →
      (parseArticleList doc category).length = 20) := by
  refine ⟨?_, ?_, ?_⟩
  · intro h
    have h2 := pass2Collect_nodup category doc.pass2Items _ h
    have hsub : List.Sublist (parseArticleList doc category)
        (articlesFull doc category) := List.take_sublist _ _
    exact List.Nodup.sublist (hsub.map (fun a => a.url)) h2
  · exact List.length_take_le 20 _
  · intro h
    unfold parseArticleList
    rw [List.length_take]
    omega

/-- A listing page with 21 distinct headline anchors. -/
def manyLinksDoc : Html :=
  { pass1Links := (List.range 21).map (fun i => ⟨"/a/" ++ toString i, "Story"⟩)
    pass2Items := []
    titleElem := none
    contentElem := none
    sourceElem := none
    authorElem := none
    timeElem := none
    imageElem := none }

/-- C3 amended witness: the dedup and cap conclusions at a page with 21
distinct candidates. -/
theorem C3_amended_witness :
    ((parseArticleList manyLinksDoc Category.politics).map
      (fun a => a.url)).Nodup ∧
    (parseArticleList manyLinksDoc Category.politics).length = 20 :=
  ⟨(C3_amended manyLinksDoc Category.politics).1 (by decide),
   (C3_amended manyLinksDoc Category.politics).2.2 (by decide)⟩

/-- Take characters up to the first `/`. -/
def hostChars : List Char → List Char
  | [] => []
  | '/' :: _ => []
  | c :: rest => c :: hostChars rest

/-- Drop everything up to and including the first `"://"`. -/
def hostAfterScheme (cs : List Char) : String :=
  match cs with
  | ':' :: '/' :: '/' :: rest => ⟨hostChars rest⟩
  | _ :: rest => hostAfterScheme rest
  | [] => ""

/-- Host extraction: the text between `"://"` and the following `/`. -/
def urlHost (url : String) : String :=
  hostAfterScheme url.data

/-- The listing page used against C7: a single absolute anchor on a foreign
host whose path merely contains the canonical domain as a substring. -/
def foreignHostDoc : Html :=
  { pass1Links := [⟨"https://evil.example/news.naver.com", "Ad"⟩]
    pass2Items := []
    titleElem := none
    contentElem := none
    sourceElem := none
    authorElem := none
    timeElem := none
    imageElem := none }

/-- C7 counterexample: the parser retains an anchor whose URL's host is
`evil.example`, not `news.naver.com` — the filter is a substring test on the
whole URL, not a host comparison, so "every anchor whose URL's host is not
that domain is filtered out" fails. -/
theorem C7_counterexample :
    (parseArticleList foreignHostDoc Category.politics).map (fun a => a.url)
      = ["https://evil.example/news.naver.com"] ∧
    urlHost "https://evil.example/news.naver.com" ≠ "news.naver.com" := by
  constructor
  · decide
  · decide

theorem normalizeLink_retained (l : Link) (p : String × String)
    (h : normalizeLink l = some p) :
    containsSub "news.naver.com" p.2 = true ∧ strStartsWith p.2 "/" = false := by
  have https_slash : ∀ s : String, strStartsWith ("https:" ++ s) "/" = false := by
    intro s; cases s with | mk data => rfl
  have base_slash : ∀ s : String, strStartsWith (BASE_URL ++ s) "/" = false := by
    intro s; cases s with | mk data => rfl
  unfold normalizeLink at h
  by_cases he : l.href = "" ∨ l.text = ""
  · rw [if_pos he] at h; cases h
  · rw [if_neg he] at h
    dsimp only at h
    by_cases hc : containsSub "news.naver.com"
        (if strStartsWith l.href "/" = true then resolveHref l.href else l.href) = true
    · rw [if_pos hc] at h
      cases h
      refine ⟨hc, ?_⟩
      by_cases hsw : strStartsWith l.href "/" = true
      · rw [if_pos hsw]
        unfold resolveHref
        by_cases h2 : strStartsWith l.href "//" = true
        · rw [if_pos h2]; exact https_slash l.href
        · rw [if_neg h2]; exact base_slash l.href
      · rw [if_neg hsw]
        exact Bool.eq_false_iff.mpr hsw
    · rw [if_neg hc] at h; cases h

theorem pass1Collect_retained (category : Category) (links : List Link)
    (a : Candidate) (h : a ∈ pass1Collect links category) :
    containsSub "news.naver.com" a.url = true ∧ strStartsWith a.url "/" = false := by
  induction links with
  | nil => cases h
  | cons l rest ih =>
      revert h
      show a ∈ (match normalizeLink l with
        | some (title, href) => (⟨title, href, category⟩ : Candidate) ::
            pass1Collect rest category
        | none => pass1Collect rest category) → _
      cases hn : normalizeLink l with
      | none => exact ih
      | some p =>
          obtain ⟨title, href⟩ := p
          intro h
          rcases List.mem_cons.1 h with rfl | hmem
          · exact normalizeLink_retained l (title, href) hn
          · exact ih hmem

theorem pass2Collect_retained (category : Category) (items : List (Option Link)) :
    ∀ acc : List Candidate,
      (∀ x ∈ acc, containsSub "news.naver.com" x.url = true ∧
        strStartsWith x.url "/" = false) →
      ∀ a ∈ pass2Collect acc items category,
        containsSub "news.naver.com" a.url = true ∧
          strStartsWith a.url "/" = false := by
  induction items with
  | nil => intro acc hacc a ha; exact hacc a ha
  | cons head rest ih =>
      intro acc hacc a ha
      cases head with
      | none => exact ih acc hacc a ha
      | some l =>
          revert ha
          show a ∈ (((match normalizeLink l with
            | some (title, href) =>
                if acc.any (fun x => x.url == href) then pass2Collect acc rest category
                else pass2Collect (acc ++ [(⟨title, href, category⟩ : Candidate)]) rest category
            | none => pass2Collect acc rest category)) : List Candidate) → _
          cases hn : normalizeLink l with
          | none => exact ih acc hacc a
          | some p =>
              obtain ⟨title, href⟩ := p
              dsimp only
              by_cases hdup : (acc.any fun x => x.url == href) = true
              · rw [if_pos hdup]
                exact ih acc hacc a
              · rw [if_neg hdup]
                intro ha2
                refine ih _ ?_ a ha2
                intro x hx
                rcases List.mem_append.1 hx with hx1 | hx2
                · exact hacc x hx1
                · rw [List.mem_singleton] at hx2
                  subst hx2
                  exact normalizeLink_retained l (title, href) hn

/-- C7 amended: hrefs beginning with a slash are resolved against the site's
base URL (so no retained URL is root-relative), and a candidate is retained
exactly by the code's test — its resolved URL contains the substring
`news.naver.com`; the host itself is not inspected. -/
theorem C7_amended (doc : Html) (category : Category) (a : Candidate)
    (h : a ∈ parseArticleList doc category) :
    containsSub "news.naver.com" a.url = true ∧
      strStartsWith a.url "/" = false := by
  have hfull : a ∈ articlesFull doc category :=
    List.take_subset 20 _ h
  exact pass2Collect_retained category doc.pass2Items _
    (fun x hx => pass1Collect_retained category doc.pass1Links x hx) a hfull

/-- C7 amended witness: the retention property at the foreign-host page's
single candidate. -/
theorem C7_amended_witness :
    containsSub "news.naver.com" "https://evil.example/news.naver.com" = true ∧
    strStartsWith "https://evil.example/news.naver.com" "/" = false :=
  C7_amended foreignHostDoc Category.politics
    ⟨"Ad", "https://evil.example/news.naver.com", Category.politics⟩ (by decide)

/-! ### The category crawl orchestrator -/

theorem crawlLoop_length (fetch : String → Option Html) (category : Category)
    (includeContent : Bool) (items : List Candidate) :
    (crawlLoop fetch category includeContent items).length ≤ items.length := by
  induction items with
  | nil => exact Nat.le_refl 0
  | cons item rest ih =>
      show (if includeContent then _ else _ : List Article).length ≤ rest.length + 1
      by_cases hic : includeContent = true
      · rw [if_pos hic]
        cases getArticleDetail fetch item.url category with
        | none => exact Nat.le_succ_of_le ih
        | some article => exact Nat.succ_le_succ ih
      · rw [if_neg hic]
        exact Nat.succ_le_succ ih

theorem crawlLoop_noContent (fetch : String → Option Html) (category : Category)
    (items : List Candidate) :
    crawlLoop fetch category false items = items.map (minimalArticle category) := by
  induction items with
  | nil => rfl
  | cons item rest ih =>
      show minimalArticle category item :: crawlLoop fetch category false rest = _
      rw [ih, List.map_cons]

/-- C9: `crawl_category` returns at most `min maxArticles 20` articles — the
list parser's internal cap of 20 is applied before the `max_count`
truncation, so requesting more than 20 (e.g. the service's default of 30)
still yields at most 20 — and with `include_content = False` it returns
exactly one minimal article (title, url, category, empty summary) per
retained listing candidate, in listing order. -/
theorem C9_crawl_category_cap (fetch : String → Option Html)
    (category : Category) (maxArticles : Nat) (includeContent : Bool) :
    (crawlCategory fetch category maxArticles includeContent).length ≤
      min maxArticles 20 ∧
    crawlCategory fetch category maxArticles false =
      (getArticleList fetch category maxArticles).map (minimalArticle category) := by
  constructor
  · have h1 := crawlLoop_length fetch category includeContent
      (getArticleList fetch category maxArticles)
    have h2 : (getArticleList fetch category maxArticles).length ≤
        min maxArticles 20 := by
      unfold getArticleList
      cases fetch (sectionUrl category) with
      | none => exact Nat.zero_le _
      | some html =>
          show ((parseArticleList html category).take maxArticles).length ≤ _
          unfold parseArticleList
          rw [List.length_take, List.length_take]
          omega
    exact Nat.le_trans h1 h2
  · exact crawlLoop_noContent fetch category (getArticleList fetch category maxArticles)

/-! ### The multi-category orchestrator and its run log -/

theorem persistLoop_ok (repo : Repo) (items : List (String × List Article))
    (hok : ∀ p ∈ items, repo.bulkUpsert p.1 p.2 = Except.ok ()) :
    ∀ (results : List (String × Nat)) (totalCount : Nat),
      persistLoop repo items results totalCount =
        Except.ok
          (items.foldl (fun acc p => dictInsert acc p.1 p.2.length) results,
            totalCount + (items.map (fun p => p.2.length)).sum) := by
  induction items with
  | nil => intro results totalCount; simp [persistLoop]
  | cons p rest ih =>
      intro results totalCount
      obtain ⟨cat, articles⟩ := p
      show (match repo.bulkUpsert cat articles with
        | Except.error e => Except.error (e, totalCount)
        | Except.ok _ =>
            persistLoop repo rest (dictInsert results cat articles.length)
              (totalCount + articles.length)) = _
      rw [hok (cat, articles) (List.mem_cons_self _ _)]
      rw [ih (fun q hq => hok q (List.mem_cons_of_mem _ hq))]
      rw [List.foldl_cons, List.map_cons, List.sum_cons]
      rw [Nat.add_assoc]

theorem persistLoop_fail (repo : Repo) (done : List (String × List Article))
    (cat : String) (arts : List Article) (rest : List (String × List Article))
    (msg : String)
    (hdone : ∀ p ∈ done, repo.bulkUpsert p.1 p.2 = Except.ok ())
    (hfail : repo.bulkUpsert cat arts = Except.error msg) :
    ∀ (results : List (String × Nat)) (totalCount : Nat),
      persistLoop repo (done ++ (cat, arts) :: rest) results totalCount =
        Except.error (msg, totalCount + (done.map (fun p => p.2.length)).sum) := by
  induction done with
  | nil =>
      intro results totalCount
      show (match repo.bulkUpsert cat arts with
        | Except.error e => Except.error (e, totalCount)
        | Except.ok _ =>
            persistLoop repo rest (dictInsert results cat arts.length)
              (totalCount + arts.length)) = _
      rw [hfail]
      rw [List.map_nil, List.sum_nil, Nat.add_zero]
  | cons p ps ih =>
      intro results totalCount
      obtain ⟨c, a⟩ := p
      show (match repo.bulkUpsert c a with
        | Except.error e => Except.error (e, totalCount)
        | Except.ok _ =>
            persistLoop repo (ps ++ (cat, arts) :: rest)
              (dictInsert results c a.length) (totalCount + a.length)) = _
      rw [hdone (c, a) (List.mem_cons_self _ _)]
      rw [ih (fun q hq => hdone q (List.mem_cons_of_mem _ hq))]
      rw [List.map_cons, List.sum_cons, Nat.add_assoc]

/-- C1: whenever the per-category persistence step of the service's
`crawl_all_categories` raises after the first `k-1` categories were
persisted, the run log is updated to `failed`, with `total_count` equal to
the sum of the first `k-1` categories' counts only and with the raising
exception's (non-empty) message, and the same exception propagates to the
caller. -/
theorem C1_runlog_failure_accounting (repo : Repo)
    (fetch : String → Option Html) (categories : Option (List Category))
    (maxPerCategory : Nat) (includeContent : Bool) (id : Nat)
    (done : List (String × List Article)) (cat : String) (arts : List Article)
    (rest : List (String × List Article)) (msg : String)
    (hlog : repo.createLogId = some id)
    (hsplit : crawlAllCategories fetch (some (categoriesOrAll categories))
        maxPerCategory includeContent = done ++ (cat, arts) :: rest)
    (hdone : ∀ p ∈ done, repo.bulkUpsert p.1 p.2 = Except.ok ())
    (hfail : repo.bulkUpsert cat arts = Except.error msg)
    (hmsg : msg ≠ "") :
    (NewsService.crawlAllCategories repo fetch categories maxPerCategory
        includeContent).logUpdates =
      [{ logId := id, count := (done.map (fun p => p.2.length)).sum,
         status := "failed", errorMessage := some msg }] ∧
    (NewsService.crawlAllCategories repo fetch categories maxPerCategory
        includeContent).returned = Except.error msg ∧
    msg ≠ "" := by
  unfold NewsService.crawlAllCategories
  rw [hsplit, persistLoop_fail repo done cat arts rest msg hdone hfail [] 0,
    Nat.zero_add, hlog]
  exact ⟨rfl, rfl, hmsg⟩

/-- A repository whose bulk upsert succeeds for politics and raises
`"db down"` for every other category. -/
def failingRepo : Repo :=
  { createLogId := some 1
    bulkUpsert := fun cat _ =>
      if cat = "politics" then Except.ok () else Except.error "db down" }

/-- C1 witness: the failure-accounting theorem at a concrete two-category
run whose persistence raises on the second category. -/
theorem C1_runlog_failure_accounting_witness :
    (NewsService.crawlAllCategories failingRepo (fun _ => none)
        (some [Category.politics, Category.economy]) 5 false).logUpdates =
      [{ logId := 1, count := 0, status := "failed",
         errorMessage := some "db down" }] ∧
    (NewsService.crawlAllCategories failingRepo (fun _ => none)
        (some [Category.politics, Category.economy]) 5 false).returned =
      Except.error "db down" ∧
    "db down" ≠ "" :=
  C1_runlog_failure_accounting failingRepo (fun _ => none)
    (some [Category.politics, Category.economy]) 5 false 1
    [("politics", [])] "economy" [] [] "db down" rfl (by decide)
    (by intro p hp; rw [List.mem_singleton] at hp; subst hp; rfl) rfl
    (by decide)

theorem foldl_dictInsert {α β : Type} (key : β → String) (f : β → α)
    (xs : List β) :
    ∀ acc : List (String × α),
      (∀ b ∈ xs, (acc.any fun p => p.1 == key b) = false) →
      ((xs.map key).Nodup) →
      xs.foldl (fun a b => dictInsert a (key b) (f b)) acc =
        acc ++ xs.map (fun b => (key b, f b)) := by
  induction xs with
  | nil => intro acc _ _; simp
  | cons x xs ih =>
      intro acc hdisj hnodup
      rw [List.foldl_cons]
      have h1 : dictInsert acc (key x) (f x) = acc ++ [(key x, f x)] := by
        unfold dictInsert
        rw [hdisj x (List.mem_cons_self _ _)]
        simp
      have hx : key x ∉ xs.map key := by
        rw [List.map_cons, List.nodup_cons] at hnodup
        exact hnodup.1
      rw [h1]
      rw [ih (acc ++ [(key x, f x)]) ?_ ?_]
      · rw [List.map_cons, List.append_assoc]
        rfl
      · intro b hb
        rw [List.any_append]
        rw [hdisj b (List.mem_cons_of_mem _ hb)]
        simp only [Bool.false_or, List.any_cons, List.any_nil, Bool.or_false]
        rw [beq_eq_false_iff_ne]
        intro hkeq
        exact hx (hkeq ▸ List.mem_map_of_mem key hb)
      · rw [List.map_cons, List.nodup_cons] at hnodup
        exact hnodup.2

/-- C4: in every multi-category crawl over distinct categories in which the
listing fetch for politics yields no content while persistence succeeds,
`crawl_category` returns the empty list for politics (no exception), the
mapping the service returns gives every category exactly the count an
isolated crawl of that category produces (so siblings are unaffected), and
politics maps to 0. -/
theorem C4_category_isolation (repo : Repo) (fetch : String → Option Html)
    (cats : List Category) (maxPerCategory : Nat)
    (hnodup : (cats.map Category.value).Nodup)
    (hfail : fetch (sectionUrl Category.politics) = none)
    (hok : ∀ c arts, repo.bulkUpsert c arts = Except.ok ()) :
    crawlCategory fetch Category.politics maxPerCategory false = [] ∧
    (NewsService.crawlAllCategories repo fetch (some cats) maxPerCategory
        false).returned =
      Except.ok (cats.map (fun c =>
        (c.value, (crawlCategory fetch c maxPerCategory false).length))) ∧
    (Category.politics ∈ cats →
      ("politics", 0) ∈ cats.map (fun c =>
        (c.value, (crawlCategory fetch c maxPerCategory false).length))) := by
  have hpol : crawlCategory fetch Category.politics maxPerCategory false = [] := by
    unfold crawlCategory getArticleList
    rw [hfail]
    rfl
  refine ⟨hpol, ?_, ?_⟩
  · unfold NewsService.crawlAllCategories
    have hitems : crawlAllCategories fetch (some (categoriesOrAll (some cats)))
        maxPerCategory false =
        cats.map (fun c => (c.value, crawlCategory fetch c maxPerCategory false)) := by
      have h := foldl_dictInsert Category.value
        (fun c => crawlCategory fetch c maxPerCategory false) cats []
        (fun b _ => rfl) hnodup
      simpa [crawlAllCategories, categoriesOrAll] using h
    rw [hitems, persistLoop_ok repo _ (fun p _ => hok p.1 p.2) [] 0]
    have hkeys : (((cats.map (fun c =>
        (c.value, crawlCategory fetch c maxPerCategory false))).map Prod.fst).Nodup) := by
      rw [List.map_map]
      simpa [Function.comp] using hnodup
    have h2 := foldl_dictInsert Prod.fst
      (fun p : String × List Article => p.2.length)
      (cats.map (fun c => (c.value, crawlCategory fetch c maxPerCategory false))) []
      (fun b _ => rfl) hkeys
    show Except.ok _ = _
    rw [h2]
    simp [List.map_map, Function.comp]
  · intro hp
    have h := List.mem_map_of_mem
      (fun c => (c.value, (crawlCategory fetch c maxPerCategory false).length)) hp
    dsimp only at h
    rw [hpol] at h
    exact h

/-- The network used in the C4 witness: the economy section resolves to a
one-story listing page, every other URL fails. -/
def economyOnlyFetch : String → Option Html := fun u =>
  if u = sectionUrl Category.economy then
    some
      { pass1Links := [⟨"/a/1", "Economy story"⟩]
        pass2Items := []
        titleElem := none
        contentElem := none
        sourceElem := none
        authorElem := none
        timeElem := none
        imageElem := none }
  else none

/-- A repository that always succeeds. -/
def okRepo : Repo :=
  { createLogId := some 1
    bulkUpsert := fun _ _ => Except.ok () }

/-- C4 witness: the isolation theorem at the concrete economy-only network,
with economy's count evaluated. -/
theorem C4_category_isolation_witness :
    crawlCategory economyOnlyFetch Category.politics 5 false = [] ∧
    (NewsService.crawlAllCategories okRepo economyOnlyFetch
        (some [Category.politics, Category.economy]) 5 false).returned =
      Except.ok [("politics", 0), ("economy", 1)] ∧
    ("politics", 0) ∈ [(("politics" : String), (0 : Nat)), ("economy", 1)] := by
  have h := C4_category_isolation okRepo economyOnlyFetch
    [Category.politics, Category.economy] 5 (by decide) (by decide)
    (fun c arts => rfl)
  have hmap : ([Category.politics, Category.economy].map (fun c =>
      (c.value, (crawlCategory economyOnlyFetch c 5 false).length))) =
      [("politics", 0), ("economy", 1)] := by decide
  refine ⟨h.1, ?_, ?_⟩
  · rw [h.2.1, hmap]
  · have h3 := h.2.2 (List.mem_cons_self _ _)
    rw [hmap] at h3
    exact h3

end News
